import Mathlib

/-!
Shallow embedding of the chart-graphics core of the `piker` repository
(`piker/ui/_graphics.py` and `piker/ui/_graphics/__init__.py`):

* the OHLC bar geometry cache (`bars_from_ohlc`, `BarItems.update_from_array`,
  `BarItems.draw_lines`) over a fixed-capacity preallocated line table;
* the multi-panel crosshair controller (`CrossHair.mouseAction`,
  `CrossHair.mouseMoved`);
* the level-annotation labels (`LevelLabel.update_label`,
  `L1Label.set_label_str`, `LevelLine.set_level`) and
  `ContentsLabel.update_from_value`.

Prices and coordinates are modelled as exact rationals; Python exceptions are
modelled with `Except`.  A raised exception aborts the call: the partially
mutated Qt object state behind an exception is not observable in this model.
-/

namespace Piker

/-- A line segment, modelling `QtCore.QLineF` (two endpoints). -/
structure QLineF where
  x1 : ℚ
  y1 : ℚ
  x2 : ℚ
  y2 : ℚ
deriving DecidableEq, Repr

/-- One row of the OHLC input array (`index, open, high, low, close, volume`
fields of the numpy record).  `open` is a Lean keyword, hence `open_`. -/
structure OHLCRow where
  index : ℤ
  open_ : ℚ
  high : ℚ
  low : ℚ
  close : ℚ
  volume : ℚ
deriving DecidableEq, Repr

/-- One row of the `BarItems.lines` table: the tuple `(hl, o, c)` stored by
`bars_from_ohlc` = optional high-low body line, open arm, close arm. -/
structure BarGeometry where
  body : Option QLineF
  larm : QLineF
  rarm : QLineF
deriving DecidableEq, Repr

/-- Python errors raised by the embedded code. -/
inductive PyError where
  | capacityExceeded   -- numpy broadcast ValueError on writing past the table
  | assertionError     -- the `assert i == self.index - 1` in update_from_array
  | indexError         -- e.g. `array[-1]` on an empty array
  | typeError          -- unpacking a zeroed slot of the fresh lines array
  | valueError         -- a str formatted with a float format spec
deriving DecidableEq, Repr

instance {ε α : Type} [DecidableEq ε] [DecidableEq α] : DecidableEq (Except ε α) :=
  fun x y =>
    match x, y with
    | .ok a, .ok b =>
      if h : a = b then isTrue (by rw [h]) else
        isFalse (by intro hc; cases hc; exact h rfl)
    | .error a, .error b =>
      if h : a = b then isTrue (by rw [h]) else
        isFalse (by intro hc; cases hc; exact h rfl)
    | .ok _, .error _ => isFalse (by intro hc; cases hc)
    | .error _, .ok _ => isFalse (by intro hc; cases hc)

/-- `bars_from_ohlc(data, w)` (`piker/ui/_graphics.py:344`): generate one
`(hl, o, c)` line tuple per input row.  The body line is present iff
`low != high`; the open arm runs from `index - w` to `index` at height `open`;
the close arm from `index` to `index + w` at height `close`.  The `start`
argument of the source is always `0` at the call site inside
`update_from_array`, which is the specialisation embedded here. -/
def bars_from_ohlc (data : List OHLCRow) (w : ℚ) : List BarGeometry :=
  data.map fun q =>
    { body :=
        if q.low ≠ q.high then
          some ⟨(q.index : ℚ), q.low, (q.index : ℚ), q.high⟩
        else
          none
      larm := ⟨(q.index : ℚ) - w, q.open_, (q.index : ℚ), q.open_⟩
      rarm := ⟨(q.index : ℚ), q.close, (q.index : ℚ) + w, q.close⟩ }

namespace BarItems

/-- `BarItems.w`: configured half-width of the open/close arms (0.43). -/
def w : ℚ := 43 / 100

/-- Capacity of the preallocated lines table: `_mk_lines_array([], 50e3)`. -/
def capacity : ℕ := 50000

end BarItems

/-- State of a `BarItems` graphics object.  `lines` is the filled prefix
`self.lines[0 : self.index]` of the preallocated 50000-row table (so
`self.index = lines.length`); `history` and `last` are the contents (drawn
segments) of the two `QPicture` render batches. -/
structure BarItemsState where
  lines : List BarGeometry
  history : List QLineF
  last : List QLineF
deriving DecidableEq, Repr

/-- The segment list painted by `draw_lines` for a slice of the table:
`np.ravel` of the `(hl, o, c)` tuples with the `None` entries filtered out. -/
def compileGeoms (gs : List BarGeometry) : List QLineF :=
  gs.flatMap fun g => g.body.toList ++ [g.larm, g.rarm]

/-- Write `b` into the body slot of row `p` of the lines table, modelling the
chained assignment `body = self.lines[index - 1][0] = ...`.  A negative `p`
wraps (Python indexing) into the unfilled tail of the 50000-row array, which
leaves the filled prefix modelled here unchanged. -/
def setBodyAt (lines : List BarGeometry) (p : ℤ) (b : Option QLineF) :
    List BarGeometry :=
  if p < 0 then lines
  else
    match lines[p.toNat]? with
    | some g => lines.set p.toNat { g with body := b }
    | none => lines

/-- The tail of `update_from_array` (`piker/ui/_graphics.py:547`): read the
last row of the input array, assert its `index` field equals
`self.index - 1`, mutate the arms of the stored last-bar geometry in place,
add or remove the body line according to `low != high`, and recompile the
`last` picture via `draw_lines(just_history=False)` (which draws the slice
`lines[self.index - 1 : self.index]`).  `oldIndex` is the local variable
`index` captured before any append. -/
def updateLastBar (oldIndex : ℕ) (array : List OHLCRow) (s : BarItemsState) :
    Except PyError BarItemsState :=
  match array.getLast? with
  | none => .error .indexError
  | some q =>
    if q.index ≠ (s.lines.length : ℤ) - 1 then .error .assertionError
    else
      match s.lines.getLast? with
      | none => .error .typeError
      | some g =>
        let m := s.lines.length - 1
        let rarm : QLineF := { g.rarm with y1 := q.close, y2 := q.close }
        let larm : QLineF := { g.larm with y1 := q.open_, y2 := q.open_ }
        let lines1 := s.lines.set m { g with larm := larm, rarm := rarm }
        let lines2 :=
          if q.low ≠ q.high then
            match g.body with
            | none =>
              setBodyAt lines1 ((oldIndex : ℤ) - 1)
                (some ⟨(q.index : ℚ), q.low, (q.index : ℚ), q.high⟩)
            | some _ =>
              lines1.set m
                { body := some ⟨(q.index : ℚ), q.low, (q.index : ℚ), q.high⟩
                  larm := larm, rarm := rarm }
          else
            match g.body with
            | some _ => setBodyAt lines1 ((oldIndex : ℤ) - 1) none
            | none => lines1
        .ok { lines := lines2
              history := s.history
              last := compileGeoms (lines2.drop (lines2.length - 1)) }

/-- `BarItems.update_from_array(array, just_history)`
(`piker/ui/_graphics.py:514`).  If the input array is longer than the current
fill count, the extra rows are run through `bars_from_ohlc` and written at
`self.lines[index : index + bars_added]` (a numpy broadcast `ValueError` if
that overruns the 50000-row table), the count advances, and the `history`
picture is recompiled by `draw_lines(just_history=True)` over
`lines[0 : self.index - 1]`; with `just_history` the call returns there.
Otherwise (and also after an append without `just_history`) the last bar is
updated in place by the tail of the method. -/
def update_from_array (array : List OHLCRow) (just_history : Bool)
    (s : BarItemsState) : Except PyError BarItemsState :=
  let index := s.lines.length
  let length := array.length
  if index < length then
    let new := array.drop index
    let lines := bars_from_ohlc new BarItems.w
    let bars_added := lines.length
    if BarItems.capacity < index + bars_added then .error .capacityExceeded
    else
      let s1 : BarItemsState := { s with lines := s.lines ++ lines }
      let s2 : BarItemsState :=
        { s1 with history := compileGeoms (s1.lines.take (s1.lines.length - 1)) }
      if just_history then .ok s2
      else updateLastBar index array s2
  else
    updateLastBar index array s

/-! ## Crosshair controller (`piker/ui/_graphics/__init__.py`) -/

/-- A 2-D point, modelling `QtCore.QPointF`. -/
structure Point where
  x : ℚ
  y : ℚ
deriving DecidableEq, Repr

/-- Floor of a rational, computed with Euclidean-floor integer division. -/
def ratFloor (x : ℚ) : ℤ := x.num.fdiv (x.den : ℤ)

/-- Python `round` applied to the (exact) coordinate value: round half to
even, as used for `ix = round(x)` in `CrossHair.mouseMoved`. -/
def pyRound (x : ℚ) : ℤ :=
  let n := ratFloor x
  let r := x - (n : ℚ)
  if r < 1 / 2 then n
  else if 1 / 2 < r then n + 1
  else if n % 2 = 0 then n else n + 1

/-- Per-plot entry of `CrossHair.graphics`: the positions of the vertical and
horizontal indicator lines, their visibility, the last `(abs_pos, value)`
pushed to the y-axis label, the last index pushed to the contents labels of
the plot (an external collaborator), and the indices of the subscribed
`LineDot` cursors. -/
structure PlotGraphics where
  vl : ℚ
  hl : ℚ
  hlVisible : Bool
  ylVisible : Bool
  yl : Option (Point × ℚ)
  contents : Option ℤ
  cursors : List ℤ
deriving DecidableEq, Repr

/-- Global `CrossHair` state: registered plots (by position of registration),
the active plot, the `(abs_pos, value)` last pushed to the shared bottom
x-axis label, and `self._lastx`. -/
structure CrossHairState where
  plots : List PlotGraphics
  active_plot : Option ℕ
  xaxis_label : Option (Point × ℚ)
  lastx : Option ℤ
deriving DecidableEq, Repr

/-- Apply `f` to the `n`-th element of a list, if present. -/
def modifyAt (l : List α) (n : ℕ) (f : α → α) : List α :=
  match l[n]? with
  | some a => l.set n (f a)
  | none => l

/-- Kind of a mouse enter/leave event fed to `CrossHair.mouseAction`. -/
inductive MouseActionKind where
  | enter
  | leave
deriving DecidableEq, Repr

/-- `CrossHair.mouseAction(action, plot)`
(`piker/ui/_graphics/__init__.py:304`): on Enter, make `plot` the active plot
and show its horizontal line and y-label; on Leave, unconditionally clear the
active plot and hide the horizontal line and y-label of the plot the event
came from. -/
def mouseAction (action : MouseActionKind) (plot : ℕ) (s : CrossHairState) :
    CrossHairState :=
  match action with
  | .enter =>
    { s with
      active_plot := some plot
      plots := modifyAt s.plots plot fun pg =>
        { pg with hlVisible := true, ylVisible := true } }
  | .leave =>
    { s with
      active_plot := none
      plots := modifyAt s.plots plot fun pg =>
        { pg with hlVisible := false, ylVisible := false } }

/-- `CrossHair.mouseMoved(evt)` (`piker/ui/_graphics/__init__.py:319`).
`mapToView` is the active plot's screen-to-data transform and `mapFromView`
its inverse (external coordinate-transform collaborators).  If no plot is
active the `AttributeError` is swallowed and nothing happens.  Otherwise the
active plot's horizontal line and y-label always follow the pointer, and only
when `round(x)` differs from `self._lastx` does every registered plot get its
vertical line, contents labels and cursor dots refreshed along with the shared
x-axis label. -/
def mouseMoved (mapToView mapFromView : Point → Point) (pos : Point)
    (s : CrossHairState) : CrossHairState :=
  match s.active_plot with
  | none => s
  | some ap =>
    let mp := mapToView pos
    let x := mp.x
    let y := mp.y
    let s1 :=
      { s with plots := modifyAt s.plots ap fun pg =>
          { pg with hl := y, yl := some (pos, y) } }
    let ix := pyRound x
    let s2 :=
      if some ix ≠ s1.lastx then
        { s1 with
          plots := s1.plots.map fun pg =>
            { pg with
              vl := (ix : ℚ)
              contents := some ix
              cursors := pg.cursors.map fun _ => ix }
          xaxis_label := some (mapFromView ⟨(ix : ℚ), y⟩, x) }
      else s1
    { s2 with lastx := some ix }

/-! ## Label text formatting

Models of the Python format specs used by the label code.  Values are exact
rationals, so the rounding of a binary double to its shortest decimal is
modelled as exact round-half-to-even of the rational value. -/

/-- Left-pad a digit string with zeros up to width `d`. -/
def padLeftZeros (s : String) (d : ℕ) : String :=
  ⟨List.replicate (d - s.length) '0'⟩ ++ s

/-- Python `'{x:.df}'`: fixed-point rendering with `d` decimal digits. -/
def formatFixed (x : ℚ) (d : ℕ) : String :=
  let n : ℤ := pyRound (x * ((10 : ℚ) ^ d))
  let m := n.natAbs
  let ip := Nat.repr (m / 10 ^ d)
  let fp := Nat.repr (m % 10 ^ d)
  (if n < 0 then "-" else "") ++ ip ++
    (if d = 0 then "" else "." ++ padLeftZeros fp d)

/-- Insert a comma after every three digits of a reversed digit list. -/
def groupDigitsAux : List Char → List Char
  | a :: b :: c :: d :: rest => a :: b :: c :: ',' :: groupDigitsAux (d :: rest)
  | l => l

/-- Group the digits of an integer-part string in threes with commas, as the
Python `','` format option does. -/
def groupDigits (s : String) : String :=
  ⟨(groupDigitsAux s.data.reverse).reverse⟩

/-- Python `'{x:,.df}'`: fixed-point rendering with `d` decimal digits and
comma thousands grouping of the integer part. -/
def formatFixedGrouped (x : ℚ) (d : ℕ) : String :=
  let n : ℤ := pyRound (x * ((10 : ℚ) ^ d))
  let m := n.natAbs
  let ip := groupDigits (Nat.repr (m / 10 ^ d))
  let fp := Nat.repr (m % 10 ^ d)
  (if n < 0 then "-" else "") ++ ip ++
    (if d = 0 then "" else "." ++ padLeftZeros fp d)

/-- Python `.replace(',', ' ')` for a single-character pattern. -/
def replaceCommas (s : String) : String :=
  ⟨s.data.map fun c => if c = ',' then ' ' else c⟩

/-! ## Level annotation (`piker/ui/_graphics/__init__.py:386` onwards) -/

/-- State of a `LevelLabel`.  `digits`, `hShift` and `vShift` come from the
constructor (`_h_shift` is `-1` for `orient_h='left'`, `0` for `'right'`);
`brW`/`brH` are the bounding-rect width and height.  The bounding rect of a
level label is pre-measured from a worst-case string by `_size_br_from_str`
at creation (class `YSticky` in `piker/ui/_axes.py`, not under `src/`;
modelled from the spec, which states the footprint is pre-measured once and
never changes on value updates), so `brW`/`brH` are fixed data here and
`set_label_str` does not touch them. -/
structure LevelLabelState where
  digits : ℕ
  hShift : ℚ
  vShift : ℚ
  brW : ℚ
  brH : ℚ
  label_str : String
  pos : Point
  level : ℚ
deriving DecidableEq, Repr

/-- `LevelLabel.set_label_str(level)` (`piker/ui/_graphics/__init__.py:439`):
`'{level:.{digits}f}'.format(...)` followed by `.replace(',', ' ')`. -/
def LevelLabel.set_label_str (s : LevelLabelState) (level : ℚ) :
    LevelLabelState :=
  { s with label_str := replaceCommas (formatFixed level s.digits) }

/-- `LevelLabel.update_label(abs_pos, level, offset=1)`
(`piker/ui/_graphics/__init__.py:417`): rewrite the label text, then place the
label at `(_h_shift * w - offset, abs_pos.y() - _v_shift * h - offset)` where
`h`/`w` are the (pre-measured) bounding-rect height and width, and store the
new level. -/
def LevelLabel.update_label (s : LevelLabelState) (abs_pos : Point) (level : ℚ)
    (offset : ℚ) : LevelLabelState :=
  let s1 := LevelLabel.set_label_str s level
  let h := s1.brH
  let w := s1.brW
  { s1 with
    pos := ⟨s1.hShift * w - offset, abs_pos.y - s1.vShift * h - offset⟩
    level := level }

/-- Modelled from the spec: `YSticky.update_from_data(index, value)` lives in
`piker/ui/_axes.py`, which is not under `src/`.  Per the spec the drag handler
recomputes the label text from the new level and repositions the label
relative to its anchor axis, i.e. it maps the level to scene coordinates
(`toScene`, the external per-panel coordinate transform) and calls
`update_label` with the default offset. -/
def update_from_data (toScene : ℚ → Point) (s : LevelLabelState) (level : ℚ) :
    LevelLabelState :=
  LevelLabel.update_label s (toScene level) level 1

/-- State of a `LevelLine` (`pg.InfiniteLine` subclass): its current value
(the level the line sits at) and its label. -/
structure LevelLineState where
  value : ℚ
  label : LevelLabelState
deriving DecidableEq, Repr

/-- `LevelLine.set_level` (`piker/ui/_graphics/__init__.py:545`): the
`sigPositionChanged` slot; pushes `self.value()` into the label via
`update_from_data`. -/
def LevelLine.set_level (toScene : ℚ → Point) (line : LevelLineState) :
    LevelLineState :=
  { line with label := update_from_data toScene line.label line.value }

/-- A drag of the level line to `newLevel`: the `pg.InfiniteLine` framework
updates the line value and emits `sigPositionChanged`, which runs
`set_level`. -/
def LevelLine.onDrag (toScene : ℚ → Point) (line : LevelLineState)
    (newLevel : ℚ) : LevelLineState :=
  LevelLine.set_level toScene { line with value := newLevel }

/-- `L1Label.set_label_str(level)` (`piker/ui/_graphics/__init__.py:477`):
`'{size:.{size_digits}f} x {level:,.{digits}f}'` with `size=self.size or '?'`,
then `.replace(',', ' ')`.  When `size` is zero (the unset default) the
Python `or` selects the string `'?'`, and applying the float format spec
`'.{size_digits}f'` to a `str` raises `ValueError`. -/
def L1Label.set_label_str (size : ℚ) (size_digits digits : ℕ) (level : ℚ) :
    Except PyError String :=
  if size = 0 then .error .valueError
  else
    .ok (replaceCommas
      (formatFixed size size_digits ++ " x " ++ formatFixedGrouped level digits))

/-! ## Contents label (`piker/ui/_graphics/__init__.py:131`) -/

/-- A row of the array backing `ContentsLabel.update_from_value`: its `index`
field and the value of the one named column being displayed. -/
structure NamedRow where
  index : ℤ
  value : ℚ
deriving DecidableEq, Repr

/-- `ContentsLabel.update_from_value(name, index, array)`
(`piker/ui/_graphics/__init__.py:189`): with `first = array[0]['index']`, the
label text is rewritten to `f"{name}: {data:.2f}"` only when
`index < array[-1]['index'] and index > first`, reading
`data = array[index - first][name]`; otherwise the text is untouched.
`text` is the current label text; the result is the text afterwards. -/
def update_from_value (name : String) (index : ℤ) (array : List NamedRow)
    (text : String) : Except PyError String :=
  match array.head? with
  | none => .error .indexError
  | some first =>
    match array.getLast? with
    | none => .error .indexError
    | some lastRow =>
      if index < lastRow.index ∧ first.index < index then
        match array[(index - first.index).toNat]? with
        | some row => .ok (name ++ ": " ++ formatFixed row.value 2)
        | none => .error .indexError
      else .ok text

/-! ## Helper lemmas -/

theorem list_getLast?_eq_getElem? {α : Type} (l : List α) :
    l.getLast? = l[l.length - 1]? := by
  induction l with
  | nil => rfl
  | cons a t ih =>
    cases t with
    | nil => rfl
    | cons b u =>
      rw [List.getLast?_cons_cons, ih]
      simp [List.length_cons]

theorem list_set_getElem?_self {α : Type} {l : List α} {n : ℕ} {a : α}
    (h : l[n]? = some a) : l.set n a = l := by
  induction l generalizing n with
  | nil => simp at h
  | cons x t ih =>
    cases n with
    | zero =>
      simp at h
      simp [List.set, h]
    | succ k =>
      simp at h
      simp [List.set, ih h]

theorem modifyAt_getElem? {α : Type} (l : List α) (n : ℕ) (f : α → α) (k : ℕ) :
    (modifyAt l n f)[k]? = if k = n then l[k]?.map f else l[k]? := by
  unfold modifyAt
  by_cases hk : k = n
  · subst hk
    cases hg : l[k]? with
    | none => simp [hg]
    | some a =>
      have hlt : k < l.length := by
        by_contra hge
        rw [List.getElem?_eq_none (Nat.le_of_not_lt hge)] at hg
        exact Option.noConfusion hg
      simp [hg, List.getElem?_set_eq_of_lt _ hlt]
  · cases hg : l[n]? with
    | none => simp [hk]
    | some a =>
      simp [hk, List.getElem?_set_ne (show n ≠ k from fun h => hk h.symm)]

theorem modifyAt_length {α : Type} (l : List α) (n : ℕ) (f : α → α) :
    (modifyAt l n f).length = l.length := by
  unfold modifyAt
  cases l[n]? <;> simp

theorem setBodyAt_set_last (L : List BarGeometry) (A : BarGeometry)
    (b : Option QLineF) (hpos : 0 < L.length) :
    setBodyAt (L.set (L.length - 1) A) ((L.length : ℤ) - 1) b =
      L.set (L.length - 1) { A with body := b } := by
  unfold setBodyAt
  rw [if_neg (by omega : ¬ ((L.length : ℤ) - 1 < 0))]
  have hc : ((L.length : ℤ) - 1).toNat = L.length - 1 := by omega
  rw [hc, List.getElem?_set_eq_of_lt _ (Nat.sub_lt hpos Nat.one_pos)]
  simp only [List.set_set]

/-- The state produced by the pure last-bar update path of
`update_from_array` (no new bars appended): the last table row gets its arms
re-pinned to the new open/close and its body normalised to the `low != high`
rule, and the `last` picture is recompiled from that single row. -/
def pureUpdateResult (s : BarItemsState) (g : BarGeometry) (q : OHLCRow) :
    BarItemsState :=
  let m := s.lines.length - 1
  let geom : BarGeometry :=
    { body :=
        if q.low = q.high then none
        else some ⟨(q.index : ℚ), q.low, (q.index : ℚ), q.high⟩
      larm := { g.larm with y1 := q.open_, y2 := q.open_ }
      rarm := { g.rarm with y1 := q.close, y2 := q.close } }
  let lines2 := s.lines.set m geom
  { lines := lines2
    history := s.history
    last := compileGeoms (lines2.drop (lines2.length - 1)) }

theorem update_last_eq (array : List OHLCRow) (jh : Bool) (s : BarItemsState)
    (q : OHLCRow) (g : BarGeometry)
    (hlen : array.length = s.lines.length)
    (hlast : array.getLast? = some q)
    (hg : s.lines.getLast? = some g)
    (hidx : q.index = (s.lines.length : ℤ) - 1) :
    update_from_array array jh s = .ok (pureUpdateResult s g q) := by
  have hne : s.lines ≠ [] := by
    intro h
    rw [h] at hg
    exact Option.noConfusion hg
  have hpos : 0 < s.lines.length := List.length_pos.mpr hne
  have hmlt : s.lines.length - 1 < s.lines.length := Nat.sub_lt hpos Nat.one_pos
  have hgood : s.lines[s.lines.length - 1]? = some g := by
    rw [← list_getLast?_eq_getElem?]
    exact hg
  have hcast : ((s.lines.length : ℤ) - 1).toNat = s.lines.length - 1 := by
    omega
  unfold update_from_array
  rw [hlen, if_neg (Nat.lt_irrefl _)]
  simp only [updateLastBar, hlast, hg]
  rw [if_neg (fun h => h hidx)]
  by_cases hlh : q.low = q.high
  · rw [if_neg (fun h => h hlh)]
    cases hb : g.body with
    | none =>
      simp only [hb]
      unfold pureUpdateResult
      simp only [if_pos hlh]
    | some b =>
      simp only [hb]
      rw [setBodyAt_set_last _ _ _ hpos]
      unfold pureUpdateResult
      simp only [if_pos hlh]
  · rw [if_pos hlh]
    cases hb : g.body with
    | none =>
      simp only [hb]
      rw [setBodyAt_set_last _ _ _ hpos]
      unfold pureUpdateResult
      simp only [if_neg hlh]
    | some b =>
      simp only [hb, List.set_set]
      unfold pureUpdateResult
      simp only [if_neg hlh]

/-- The state produced by the pure append path of `update_from_array`
(`just_history=True`, more rows than the current count, capacity not
exceeded): the new geometries are appended and the history picture is
recompiled over everything but the new last bar. -/
def appendResult (array : List OHLCRow) (s : BarItemsState) : BarItemsState :=
  let lines1 := s.lines ++ bars_from_ohlc (array.drop s.lines.length) BarItems.w
  { lines := lines1
    history := compileGeoms (lines1.take (lines1.length - 1))
    last := s.last }

theorem bars_from_ohlc_length (data : List OHLCRow) (w : ℚ) :
    (bars_from_ohlc data w).length = data.length := by
  unfold bars_from_ohlc
  exact List.length_map ..

theorem update_append_eq (array : List OHLCRow) (s : BarItemsState)
    (hlt : s.lines.length < array.length)
    (hcap : array.length ≤ BarItems.capacity) :
    update_from_array array true s = .ok (appendResult array s) := by
  unfold update_from_array
  rw [if_pos hlt,
    if_neg (by
      rw [bars_from_ohlc_length, List.length_drop]
      omega)]
  rfl

/-! ## Claim scenarios -/

/-- A fresh `BarItems` object: empty fill, blank pictures. -/
def emptyBarItems : BarItemsState := { lines := [], history := [], last := [] }

/-- The three bars `(i, o, h, l, c)` of the spec scenario:
`[(0,10,12,9,11), (1,11,11,11,11), (2,11,14,10,13)]`. -/
def scenarioBars : List OHLCRow :=
  [⟨0, 10, 12, 9, 11, 0⟩, ⟨1, 11, 11, 11, 11, 0⟩, ⟨2, 11, 14, 10, 13, 0⟩]

/-- A malformed bar: `index` 5 does not match the next write position 0, and
`low` 10 exceeds `high` 3. -/
def badRow : OHLCRow := ⟨5, 4, 3, 10, 4, 0⟩

/-! ## Claim theorems -/

/-- C1: for every bar `(i, o, h, l, c)` processed by append
(`bars_from_ohlc`) with half-width `w`, the derived geometry is exactly:
body the vertical segment from `(i, l)` to `(i, h)` when `l != h` and absent
when `l == h`; left arm the horizontal segment from `(i - w, o)` to `(i, o)`;
right arm the horizontal segment from `(i, c)` to `(i + w, c)`.  Moreover,
appending the scenario bars with `w = 0.43` yields count 3, geometry 1 with
no body, geometry 0 with body spanning y from 9 to 12 at x 0, and geometry 2
with left arm spanning x from 1.57 to 2 at y 11. -/
theorem C1_geometry_derivation :
    (∀ (data : List OHLCRow) (w : ℚ) (k : ℕ) (q : OHLCRow),
      data[k]? = some q →
      (bars_from_ohlc data w)[k]? = some
        { body :=
            if q.low = q.high then none
            else some ⟨(q.index : ℚ), q.low, (q.index : ℚ), q.high⟩
          larm := ⟨(q.index : ℚ) - w, q.open_, (q.index : ℚ), q.open_⟩
          rarm := ⟨(q.index : ℚ), q.close, (q.index : ℚ) + w, q.close⟩ }) ∧
    (update_from_array scenarioBars true emptyBarItems).map
        (fun s => (s.lines.length,
          s.lines[1]?.map BarGeometry.body,
          s.lines[0]?.map BarGeometry.body,
          s.lines[2]?.map BarGeometry.larm)) =
      .ok (3, some none, some (some ⟨0, 9, 0, 12⟩),
        some ⟨157 / 100, 11, 2, 11⟩) := by
  constructor
  · intro data w k q h
    unfold bars_from_ohlc
    rw [List.getElem?_map, h]
    by_cases hlh : q.low = q.high
    · simp [hlh]
    · simp [hlh]
  · norm_num [update_from_array, bars_from_ohlc, scenarioBars, emptyBarItems,
      BarItems.w, BarItems.capacity, Except.map, compileGeoms]

/-- C1 witness: the geometry rule evaluated on the third scenario bar. -/
theorem C1_geometry_derivation_witness :
    (bars_from_ohlc scenarioBars (43 / 100))[2]? = some
      { body := some ⟨2, 10, 2, 14⟩
        larm := ⟨157 / 100, 11, 2, 11⟩
        rarm := ⟨2, 13, 243 / 100, 13⟩ } := by
  have h := C1_geometry_derivation.1 scenarioBars (43 / 100) 2
    ⟨2, 11, 14, 10, 13, 0⟩ rfl
  rw [h]
  norm_num

/-- C2 counterexample: `update_from_array` performs no per-bar validation.
The bar `badRow` has `index = 5` (the expected next index is 0) and
`low = 10 > high = 3`, yet the append succeeds, the count advances from 0 to
1, and the invalid geometry is written — the claim says it is rejected with
the table unchanged. -/
theorem C2_counterexample :
    (update_from_array [badRow] true emptyBarItems).map
        (fun s => (s.lines.length, s.lines[0]?.map BarGeometry.body)) =
      .ok (1, some (some ⟨5, 10, 5, 3⟩)) := by
  norm_num [update_from_array, bars_from_ohlc, badRow, emptyBarItems,
    BarItems.w, BarItems.capacity, Except.map, compileGeoms]

/-- C2 amended: the append path validates nothing.  Every row of the input
array beyond the current count is appended positionally — whatever its index
field, low/high ordering or values — and the count afterwards equals the
input length; only overrunning the fixed capacity fails (numpy broadcast
error), with no rows of that call recorded in the returned state. -/
theorem C2_append_accepts_everything (array : List OHLCRow)
    (s : BarItemsState) (hlt : s.lines.length < array.length) :
    (array.length ≤ BarItems.capacity →
      update_from_array array true s = .ok (appendResult array s) ∧
      (appendResult array s).lines.length = array.length ∧
      (appendResult array s).lines.take s.lines.length = s.lines ∧
      (appendResult array s).lines.drop s.lines.length =
        bars_from_ohlc (array.drop s.lines.length) BarItems.w) ∧
    (BarItems.capacity < array.length →
      update_from_array array true s = .error .capacityExceeded) := by
  constructor
  · intro hcap
    refine ⟨update_append_eq array s hlt hcap, ?_, ?_, ?_⟩
    · unfold appendResult
      rw [List.length_append, bars_from_ohlc_length, List.length_drop]
      omega
    · exact List.take_left ..
    · exact List.drop_left ..
  · intro hcap
    unfold update_from_array
    rw [if_pos hlt,
      if_pos (by
        rw [bars_from_ohlc_length, List.length_drop]
        omega)]

/-- C2 witness: appending the single malformed bar to a fresh table
succeeds and fills one slot. -/
theorem C2_append_accepts_everything_witness :
    update_from_array [badRow] true emptyBarItems =
      .ok (appendResult [badRow] emptyBarItems) ∧
    (appendResult [badRow] emptyBarItems).lines.length = 1 :=
  ⟨((C2_append_accepts_everything [badRow] emptyBarItems (by decide)).1
      (by decide)).1,
   ((C2_append_accepts_everything [badRow] emptyBarItems (by decide)).1
      (by decide)).2.1⟩

/-- C3: the history picture is recompiled only on calls that append a new
bar.  When the input array length equals the current count the history
picture is bit-unchanged and only the live (last-bar) picture is rebuilt
(from the single last table row); when new bars are appended the history
picture is recompiled to cover every bar except the current last one. -/
theorem C3_history_recompiled_only_on_append (array : List OHLCRow)
    (jh : Bool) (s s1 : BarItemsState) :
    (array.length = s.lines.length →
      update_from_array array jh s = .ok s1 →
      s1.history = s.history ∧
      s1.last = compileGeoms (s1.lines.drop (s1.lines.length - 1))) ∧
    (s.lines.length < array.length →
      update_from_array array jh s = .ok s1 →
      s1.history = compileGeoms
        ((s.lines ++ bars_from_ohlc (array.drop s.lines.length)
          BarItems.w).take (array.length - 1))) := by
  have haplen :
      (s.lines ++ bars_from_ohlc (array.drop s.lines.length)
        BarItems.w).length = s.lines.length + (array.length - s.lines.length) := by
    rw [List.length_append, bars_from_ohlc_length, List.length_drop]
  constructor
  · intro hlen h
    simp only [update_from_array] at h
    split at h
    · exfalso
      omega
    · simp only [updateLastBar] at h
      split at h
      · exact Except.noConfusion h
      · split at h
        · exact Except.noConfusion h
        · split at h
          · exact Except.noConfusion h
          · injection h with h
            subst h
            exact ⟨rfl, rfl⟩
  · intro hlt h
    simp only [update_from_array] at h
    split at h
    · split at h
      · exact Except.noConfusion h
      · split at h
        · injection h with h
          subst h
          simp only []
          rw [haplen]
          congr 2
          omega
        · simp only [updateLastBar] at h
          split at h
          · exact Except.noConfusion h
          · split at h
            · exact Except.noConfusion h
            · split at h
              · exact Except.noConfusion h
              · injection h with h
                subst h
                simp only []
                rw [haplen]
                congr 2
                omega
    · exfalso
      omega

/-- A one-bar table whose history picture holds a marker segment, with the
matching update row and stored geometry, used as concrete witness data. -/
def oneBarState : BarItemsState :=
  { lines := [⟨none, ⟨0, 1, 0, 1⟩, ⟨0, 2, 0, 2⟩⟩]
    history := [⟨9, 9, 9, 9⟩]
    last := [] }

/-- The stored geometry row of `oneBarState`. -/
def oneBarGeom : BarGeometry := ⟨none, ⟨0, 1, 0, 1⟩, ⟨0, 2, 0, 2⟩⟩

/-- An update row for the (single) forming bar of `oneBarState`. -/
def oneBarRow : OHLCRow := ⟨0, 1, 3, 1, 2, 0⟩

/-- C3 witness: a pure last-bar update on the concrete one-bar table leaves
the history picture (the marker segment) unchanged. -/
theorem C3_history_recompiled_only_on_append_witness :
    (pureUpdateResult oneBarState oneBarGeom oneBarRow).history =
      [⟨9, 9, 9, 9⟩] :=
  ((C3_history_recompiled_only_on_append [oneBarRow] false oneBarState
      (pureUpdateResult oneBarState oneBarGeom oneBarRow)).1 rfl
    (update_last_eq [oneBarRow] false oneBarState oneBarRow oneBarGeom
      rfl rfl rfl rfl)).1

/-- C5: a last-bar update (input array no longer than the count, last row
index equal to count - 1) succeeds, and afterwards the last table row has no
body segment when `low == high`, and a body segment spanning exactly
`[low, high]` vertically at `x = index` when `low < high`. -/
theorem C5_updateLast_body (array : List OHLCRow) (jh : Bool)
    (s : BarItemsState) (q : OHLCRow)
    (hlen : array.length = s.lines.length)
    (hlast : array.getLast? = some q)
    (hidx : q.index = (s.lines.length : ℤ) - 1) :
    (q.low = q.high →
      (update_from_array array jh s).map
          (fun s1 => s1.lines[s.lines.length - 1]?.map BarGeometry.body) =
        .ok (some none)) ∧
    (q.low < q.high →
      (update_from_array array jh s).map
          (fun s1 => s1.lines[s.lines.length - 1]?.map BarGeometry.body) =
        .ok (some (some ⟨(q.index : ℚ), q.low, (q.index : ℚ), q.high⟩))) := by
  have hne : array ≠ [] := by
    intro hnil
    rw [hnil] at hlast
    exact Option.noConfusion hlast
  have hpos : 0 < s.lines.length := by
    have := List.length_pos.mpr hne
    omega
  have hmlt : s.lines.length - 1 < s.lines.length := Nat.sub_lt hpos Nat.one_pos
  cases hgl : s.lines.getLast? with
  | none =>
    rw [List.getLast?_eq_none_iff] at hgl
    rw [hgl] at hpos
    exact absurd hpos (by simp)
  | some g =>
    rw [update_last_eq array jh s q g hlen hlast hgl hidx]
    constructor
    · intro hlh
      simp only [Except.map, pureUpdateResult]
      rw [List.getElem?_set_eq_of_lt _ hmlt]
      simp [hlh]
    · intro hlt2
      simp only [Except.map, pureUpdateResult]
      rw [List.getElem?_set_eq_of_lt _ hmlt]
      simp [if_neg (ne_of_lt hlt2)]

/-- C5 witness: updating the one-bar table with a row whose low 1 is under
its high 3 puts a body segment spanning 1 to 3 at x 0 on the last row. -/
theorem C5_updateLast_body_witness :
    (update_from_array [oneBarRow] false oneBarState).map
        (fun s1 => s1.lines[0]?.map BarGeometry.body) =
      .ok (some (some ⟨0, 1, 0, 3⟩)) :=
  (C5_updateLast_body [oneBarRow] false oneBarState oneBarRow rfl rfl rfl).2
    (by decide)

/-- C7: the last-bar update is idempotent — running `update_from_array` a
second time with the same input array returns the state of the first run
bit-identically — and a single run changes no table entry other than the
last one and leaves the count unchanged. -/
theorem C7_updateLast_idempotent (array : List OHLCRow) (jh : Bool)
    (s s1 : BarItemsState) (q : OHLCRow)
    (hlen : array.length = s.lines.length)
    (hlast : array.getLast? = some q)
    (hidx : q.index = (s.lines.length : ℤ) - 1)
    (h1 : update_from_array array jh s = .ok s1) :
    update_from_array array jh s1 = .ok s1 ∧
    s1.lines.length = s.lines.length ∧
    ∀ k, k ≠ s.lines.length - 1 → s1.lines[k]? = s.lines[k]? := by
  have hne : array ≠ [] := by
    intro hnil
    rw [hnil] at hlast
    exact Option.noConfusion hlast
  have hpos : 0 < s.lines.length := by
    have := List.length_pos.mpr hne
    omega
  have hmlt : s.lines.length - 1 < s.lines.length := Nat.sub_lt hpos Nat.one_pos
  cases hgl : s.lines.getLast? with
  | none =>
    rw [List.getLast?_eq_none_iff] at hgl
    rw [hgl] at hpos
    exact absurd hpos (by simp)
  | some g =>
    have hres := update_last_eq array jh s q g hlen hlast hgl hidx
    rw [h1] at hres
    injection hres with hs1
    have hlines1 : s1.lines = s.lines.set (s.lines.length - 1)
        { body :=
            if q.low = q.high then none
            else some ⟨(q.index : ℚ), q.low, (q.index : ℚ), q.high⟩
          larm := { g.larm with y1 := q.open_, y2 := q.open_ }
          rarm := { g.rarm with y1 := q.close, y2 := q.close } } := by
      rw [hs1]
      rfl
    have hlen1 : s1.lines.length = s.lines.length := by
      rw [hlines1, List.length_set]
    refine ⟨?_, hlen1, ?_⟩
    · have hg1 : s1.lines.getLast? = some
          { body :=
              if q.low = q.high then none
              else some ⟨(q.index : ℚ), q.low, (q.index : ℚ), q.high⟩
            larm := { g.larm with y1 := q.open_, y2 := q.open_ }
            rarm := { g.rarm with y1 := q.close, y2 := q.close } } := by
        rw [list_getLast?_eq_getElem?, hlen1, hlines1]
        exact List.getElem?_set_eq_of_lt _ hmlt
      have h2 := update_last_eq array jh s1 q _
        (by rw [hlen1]; exact hlen) hlast hg1 (by rw [hlen1]; exact hidx)
      rw [h2]
      congr 1
      simp only [pureUpdateResult, hlen1, hlines1, List.set_set]
      rw [hs1]
      simp only [pureUpdateResult, List.length_set]
      by_cases hlh : q.low = q.high
      · simp [hlh]
      · simp [hlh]
    · intro k hk
      rw [hlines1]
      exact List.getElem?_set_ne (fun h => hk h.symm)

/-- C7 witness: the concrete one-bar update applied twice returns the same
state as applying it once, at the concrete inputs. -/
theorem C7_updateLast_idempotent_witness :
    update_from_array [oneBarRow] false
        (pureUpdateResult oneBarState oneBarGeom oneBarRow) =
      .ok (pureUpdateResult oneBarState oneBarGeom oneBarRow) :=
  (C7_updateLast_idempotent [oneBarRow] false oneBarState
    (pureUpdateResult oneBarState oneBarGeom oneBarRow) oneBarRow
    rfl rfl rfl
    (update_last_eq [oneBarRow] false oneBarState oneBarRow oneBarGeom
      rfl rfl rfl rfl)).1

theorem mouseMoved_active_plot (f g : Point → Point) (p : Point)
    (s : CrossHairState) :
    (mouseMoved f g p s).active_plot = s.active_plot := by
  simp only [mouseMoved]
  cases hA : s.active_plot with
  | none => exact hA
  | some ap =>
    dsimp only
    split <;> rfl

theorem mouseMoved_lastx (f g : Point → Point) (p : Point)
    (s : CrossHairState) (ap : ℕ) (h : s.active_plot = some ap) :
    (mouseMoved f g p s).lastx = some (pyRound (f p).x) := by
  simp only [mouseMoved, h]

theorem mouseMoved_plots_length (f g : Point → Point) (p : Point)
    (s : CrossHairState) :
    (mouseMoved f g p s).plots.length = s.plots.length := by
  simp only [mouseMoved]
  cases hA : s.active_plot with
  | none => rfl
  | some ap =>
    dsimp only
    split <;> simp [modifyAt_length]

/-- C4: with a plot active, pointer moves that snap to the same bar index as
the previous move update only the active plot's horizontal line position and
y-axis label; every plot's vertical line, contents-label index and cursor
dots, the shared bottom x-axis label, and the remembered snapped index are
bit-unchanged.  A move that snaps to a different index refreshes the vertical
line, contents-label index and every cursor dot of every registered plot to
the new index, pushes the un-rounded x to the x-axis label, and records the
new snapped index. -/
theorem C4_snap_skips_synchronized_refresh (f g : Point → Point)
    (p1 p2 : Point) (s0 s1 s2 : CrossHairState) (ap : ℕ)
    (hact : s0.active_plot = some ap)
    (hap : ap < s0.plots.length)
    (h1 : mouseMoved f g p1 s0 = s1)
    (h2 : mouseMoved f g p2 s1 = s2) :
    (pyRound (f p2).x = pyRound (f p1).x →
      (∀ k, k ≠ ap → s2.plots[k]? = s1.plots[k]?) ∧
      s2.plots[ap]?.map PlotGraphics.vl = s1.plots[ap]?.map PlotGraphics.vl ∧
      s2.plots[ap]?.map PlotGraphics.contents =
        s1.plots[ap]?.map PlotGraphics.contents ∧
      s2.plots[ap]?.map PlotGraphics.cursors =
        s1.plots[ap]?.map PlotGraphics.cursors ∧
      s2.xaxis_label = s1.xaxis_label ∧
      s2.lastx = s1.lastx ∧
      s2.plots[ap]?.map PlotGraphics.hl = some (f p2).y ∧
      s2.plots[ap]?.map PlotGraphics.yl = some (some (p2, (f p2).y))) ∧
    (pyRound (f p2).x ≠ pyRound (f p1).x →
      (∀ (k : ℕ) (pg : PlotGraphics), s2.plots[k]? = some pg →
        pg.vl = (pyRound (f p2).x : ℚ) ∧
        pg.contents = some (pyRound (f p2).x) ∧
        ∀ c ∈ pg.cursors, c = pyRound (f p2).x) ∧
      s2.xaxis_label =
        some (g ⟨(pyRound (f p2).x : ℚ), (f p2).y⟩, (f p2).x) ∧
      s2.lastx = some (pyRound (f p2).x)) := by
  have hact1 : s1.active_plot = some ap := by
    rw [← h1, mouseMoved_active_plot, hact]
  have hlastx1 : s1.lastx = some (pyRound (f p1).x) := by
    rw [← h1]
    exact mouseMoved_lastx f g p1 s0 ap hact
  have hlen1 : s1.plots.length = s0.plots.length := by
    rw [← h1]
    exact mouseMoved_plots_length f g p1 s0
  have hap1 : ap < s1.plots.length := by omega
  obtain ⟨pg, hpg⟩ : ∃ pg, s1.plots[ap]? = some pg := by
    cases hq : s1.plots[ap]? with
    | none =>
      rw [List.getElem?_eq_none_iff] at hq
      omega
    | some pg => exact ⟨pg, rfl⟩
  simp only [mouseMoved, hact1, hlastx1] at h2
  constructor
  · intro hsame
    rw [hsame, if_neg (by simp)] at h2
    subst h2
    refine ⟨?_, ?_, ?_, ?_, rfl, ?_, ?_, ?_⟩
    · intro k hk
      simp only [modifyAt_getElem?, if_neg hk]
    · simp only [modifyAt_getElem?, if_pos rfl, hpg]
      rfl
    · simp only [modifyAt_getElem?, if_pos rfl, hpg]
      rfl
    · simp only [modifyAt_getElem?, if_pos rfl, hpg]
      rfl
    · rw [hlastx1]
    · simp only [modifyAt_getElem?, if_pos rfl, hpg]
      rfl
    · simp only [modifyAt_getElem?, if_pos rfl, hpg]
      rfl
  · intro hdiff
    rw [if_pos (fun hc => hdiff (Option.some.inj hc))] at h2
    subst h2
    refine ⟨?_, rfl, rfl⟩
    intro k pg2 hpg2
    simp only [List.getElem?_map] at hpg2
    cases hq : (modifyAt s1.plots ap
        (fun pg => { pg with hl := (f p2).y, yl := some (p2, (f p2).y) }))[k]? with
    | none =>
      rw [hq] at hpg2
      exact Option.noConfusion hpg2
    | some pg0 =>
      rw [hq] at hpg2
      injection hpg2 with hpg2
      subst hpg2
      refine ⟨rfl, rfl, ?_⟩
      intro c hc
      simp only [List.mem_map] at hc
      obtain ⟨c0, _, hc0⟩ := hc
      exact hc0.symm

/-- A single registered panel with one subscribed cursor dot and visible
indicator lines, used as concrete witness data. -/
def onePlot : PlotGraphics := ⟨0, 0, true, true, none, none, [0]⟩

/-- A crosshair with one registered active panel. -/
def oneCross : CrossHairState := ⟨[onePlot], some 0, none, none⟩

/-- C4 witness: feeding the same pointer position twice (same snapped index)
leaves the x-axis label and the remembered snapped index bit-unchanged. -/
theorem C4_snap_skips_synchronized_refresh_witness :
    (mouseMoved (fun q => q) (fun q => q) ⟨0, 5⟩
        (mouseMoved (fun q => q) (fun q => q) ⟨0, 5⟩ oneCross)).xaxis_label =
      (mouseMoved (fun q => q) (fun q => q) ⟨0, 5⟩ oneCross).xaxis_label ∧
    (mouseMoved (fun q => q) (fun q => q) ⟨0, 5⟩
        (mouseMoved (fun q => q) (fun q => q) ⟨0, 5⟩ oneCross)).lastx =
      (mouseMoved (fun q => q) (fun q => q) ⟨0, 5⟩ oneCross).lastx :=
  ⟨((C4_snap_skips_synchronized_refresh (fun q => q) (fun q => q)
      ⟨0, 5⟩ ⟨0, 5⟩ oneCross _ _ 0 rfl (by decide) rfl rfl).1 rfl).2.2.2.2.1,
   ((C4_snap_skips_synchronized_refresh (fun q => q) (fun q => q)
      ⟨0, 5⟩ ⟨0, 5⟩ oneCross _ _ 0 rfl (by decide) rfl rfl).1 rfl).2.2.2.2.2.1⟩

/-- A hidden-indicator panel template and a two-panel crosshair with no
active panel, used as concrete scenario data. -/
def cPlot : PlotGraphics := ⟨0, 0, false, false, none, none, []⟩

/-- Two registered panels (panel A = 0, panel B = 1), none active. -/
def twoPanel : CrossHairState := ⟨[cPlot, cPlot], none, none, none⟩

/-- C6 counterexample: after pointer enters panel A then panel B, B is the
active panel — but a leave event from the non-active panel A is not ignored:
it clears the active panel (the claim requires B to stay active). -/
theorem C6_counterexample :
    (mouseAction .enter 1 (mouseAction .enter 0 twoPanel)).active_plot =
      some 1 ∧
    (mouseAction .leave 0 (mouseAction .enter 1
      (mouseAction .enter 0 twoPanel))).active_plot = none := by
  exact ⟨rfl, rfl⟩

/-- C6 amended: a leave event from any panel — active or not — always sets
the active panel to none and hides that (leaving) panel's horizontal line and
y-axis label, leaving every other panel's state unchanged; an enter event
always makes its panel the active one. -/
theorem C6_leave_always_deactivates (p : ℕ) (s : CrossHairState) :
    (mouseAction .leave p s).active_plot = none ∧
    (mouseAction .leave p s).plots[p]? =
      (s.plots[p]?).map
        (fun pg => { pg with hlVisible := false, ylVisible := false }) ∧
    (∀ k, k ≠ p → (mouseAction .leave p s).plots[k]? = s.plots[k]?) ∧
    (mouseAction .enter p s).active_plot = some p := by
  refine ⟨rfl, ?_, ?_, rfl⟩
  · simp [mouseAction, modifyAt_getElem?]
  · intro k hk
    simp only [mouseAction, modifyAt_getElem?, if_neg hk]

/-- C6 witness: in the two-panel scenario a leave event from panel 0
deactivates and does not touch panel 1. -/
theorem C6_leave_always_deactivates_witness :
    (mouseAction .leave 0 twoPanel).active_plot = none ∧
    (mouseAction .leave 0 twoPanel).plots[1]? = twoPanel.plots[1]? :=
  ⟨(C6_leave_always_deactivates 0 twoPanel).1,
   (C6_leave_always_deactivates 0 twoPanel).2.2.1 1 (by decide)⟩

/-! ## Evaluation helpers for the rational formatting functions

`Rat` arithmetic is irreducible to the kernel, so concrete format strings
are computed by first rewriting the scaled value into an integer cast. -/

theorem pyRound_intCast (k : ℤ) : pyRound ((k : ℚ)) = k := by
  unfold pyRound ratFloor
  rw [Rat.num_intCast, Rat.den_intCast]
  norm_num [Int.fdiv_one]

theorem formatFixed_eq_of_cast (x : ℚ) (d : ℕ) (k : ℤ)
    (h : x * (10 : ℚ) ^ d = (k : ℚ)) :
    formatFixed x d =
      (if k < 0 then "-" else "") ++ Nat.repr (k.natAbs / 10 ^ d) ++
        (if d = 0 then "" else
          "." ++ padLeftZeros (Nat.repr (k.natAbs % 10 ^ d)) d) := by
  simp only [formatFixed]
  rw [h, pyRound_intCast]

theorem formatFixedGrouped_eq_of_cast (x : ℚ) (d : ℕ) (k : ℤ)
    (h : x * (10 : ℚ) ^ d = (k : ℚ)) :
    formatFixedGrouped x d =
      (if k < 0 then "-" else "") ++
        groupDigits (Nat.repr (k.natAbs / 10 ^ d)) ++
        (if d = 0 then "" else
          "." ++ padLeftZeros (Nat.repr (k.natAbs % 10 ^ d)) d) := by
  simp only [formatFixedGrouped]
  rw [h, pyRound_intCast]

theorem formatFixed_101_25 : formatFixed (405 / 4 : ℚ) 2 = "101.25" := by
  rw [formatFixed_eq_of_cast (405 / 4) 2 10125 (by norm_num)]
  decide

theorem formatFixed_100_3 : formatFixed (100 : ℚ) 3 = "100.000" := by
  rw [formatFixed_eq_of_cast 100 3 100000 (by norm_num)]
  decide

theorem formatFixed_2_50 : formatFixed (5 / 2 : ℚ) 2 = "2.50" := by
  rw [formatFixed_eq_of_cast (5 / 2) 2 250 (by norm_num)]
  decide

theorem formatFixedGrouped_1000_25 :
    formatFixedGrouped (100025 / 100 : ℚ) 2 = "1,000.25" := by
  rw [formatFixedGrouped_eq_of_cast (100025 / 100) 2 100025 (by norm_num)]
  decide

/-- C8: a drag of a level line with a left-anchored label to a new level
stores the new level, recomputes the label text from the level via the
configured fixed-point format, keeps the pre-measured bounding-rect size
unchanged, and repositions the label with vertical offset proportional to the
measured height (scaled by the orientation shift) and horizontal offset
proportional to the measured width. -/
theorem C8_drag_updates_level_label (toScene : ℚ → Point)
    (line : LevelLineState) (newLevel : ℚ)
    (hleft : line.label.hShift = -1) :
    (LevelLine.onDrag toScene line newLevel).label.level = newLevel ∧
    (LevelLine.onDrag toScene line newLevel).label.label_str =
      replaceCommas (formatFixed newLevel line.label.digits) ∧
    (LevelLine.onDrag toScene line newLevel).label.brH = line.label.brH ∧
    (LevelLine.onDrag toScene line newLevel).label.brW = line.label.brW ∧
    (LevelLine.onDrag toScene line newLevel).label.pos =
      ⟨-line.label.brW - 1,
       (toScene newLevel).y - line.label.vShift * line.label.brH - 1⟩ := by
  refine ⟨rfl, rfl, rfl, rfl, ?_⟩
  simp only [LevelLine.onDrag, LevelLine.set_level, update_from_data,
    LevelLabel.update_label, LevelLabel.set_label_str]
  rw [hleft, neg_one_mul]

/-- A two-decimal left-anchored level label at level 100, pre-measured to a
40 by 10 bounding rect. -/
def demoLabel : LevelLabelState :=
  { digits := 2, hShift := -1, vShift := 0, brW := 40, brH := 10
    label_str := "100.00", pos := ⟨0, 0⟩, level := 100 }

/-- A level line at 100.00 carrying `demoLabel`. -/
def demoLine : LevelLineState := { value := 100, label := demoLabel }

/-- C8 witness: dragging from 100.00 to 101.25 with a two-decimal format
yields label text "101.25" and keeps the measured height 10. -/
theorem C8_drag_updates_level_label_witness :
    (LevelLine.onDrag (fun v => ⟨0, v⟩) demoLine (405 / 4)).label.level =
      405 / 4 ∧
    (LevelLine.onDrag (fun v => ⟨0, v⟩) demoLine (405 / 4)).label.label_str =
      "101.25" ∧
    (LevelLine.onDrag (fun v => ⟨0, v⟩) demoLine (405 / 4)).label.brH = 10 := by
  have h := C8_drag_updates_level_label (fun v => ⟨0, v⟩) demoLine
    (405 / 4) rfl
  refine ⟨h.1, ?_, h.2.2.1⟩
  rw [h.2.1]
  show replaceCommas (formatFixed (405 / 4) 2) = "101.25"
  rw [formatFixed_101_25]
  decide

/-- C9: the authoritative `L1Label.set_label_str` renders a known size as
`"{size} x {price}"` (sizes fixed to `size_digits` decimals, prices grouped
and comma-replaced), but an unknown (zero/unset) size selects the placeholder
string, and applying the float format spec to it raises `ValueError` instead
of rendering `"?"`. -/
theorem C9_l1_label_size_placeholder :
    L1Label.set_label_str 0 3 2 100 = .error .valueError ∧
    L1Label.set_label_str 100 3 2 (100025 / 100) =
      .ok "100.000 x 1 000.25" := by
  constructor
  · rw [L1Label.set_label_str, if_pos rfl]
  · rw [L1Label.set_label_str, if_neg (by norm_num),
      formatFixed_100_3, formatFixedGrouped_1000_25]
    decide

/-- The contiguous three-row backing array used as concrete witness data for
the contents label. -/
def contentsRows : List NamedRow := [⟨0, 1⟩, ⟨1, 5 / 2⟩, ⟨2, 3⟩]

/-- C10: `ContentsLabel.update_from_value` rewrites the label text only for
an index strictly between the first and last row index of the backing array
(reading the row at offset `index - first`); for an index at or below the
first row index, or at or above the last row index, the text is returned
unchanged. -/
theorem C10_contents_label_update (name : String) (index : ℤ)
    (array : List NamedRow) (text : String) (first lastR : NamedRow)
    (hfirst : array.head? = some first)
    (hlastR : array.getLast? = some lastR) :
    (index ≤ first.index ∨ lastR.index ≤ index →
      update_from_value name index array text = .ok text) ∧
    ((∀ (k : ℕ) (r : NamedRow), array[k]? = some r →
        r.index = first.index + k) →
      first.index < index → index < lastR.index →
      (index - first.index).toNat < array.length) ∧
    (∀ r : NamedRow, array[(index - first.index).toNat]? = some r →
      first.index < index → index < lastR.index →
      update_from_value name index array text =
        .ok (name ++ ": " ++ formatFixed r.value 2)) := by
  refine ⟨?_, ?_, ?_⟩
  · intro hout
    simp only [update_from_value, hfirst, hlastR]
    rw [if_neg (by omega)]
  · intro hcontig hlo hhi
    have hne : array ≠ [] := by
      intro hnil
      rw [hnil] at hfirst
      exact Option.noConfusion hfirst
    have hpos : 0 < array.length := List.length_pos.mpr hne
    have hlast2 : array[array.length - 1]? = some lastR := by
      rw [← list_getLast?_eq_getElem?]
      exact hlastR
    have := hcontig (array.length - 1) lastR hlast2
    omega
  · intro r hr hlo hhi
    simp only [update_from_value, hfirst, hlastR]
    rw [if_pos (by omega), hr]

/-- C10 witness: index 1 lies strictly inside the three-row array, so the
text becomes the formatted row value; the same theorem at index 0 (the first
row) leaves the text unchanged. -/
theorem C10_contents_label_update_witness :
    update_from_value "close" 1 contentsRows "old" = .ok "close: 2.50" ∧
    update_from_value "close" 0 contentsRows "old" = .ok "old" := by
  constructor
  · have h := (C10_contents_label_update "close" 1 contentsRows "old"
      ⟨0, 1⟩ ⟨2, 3⟩ rfl rfl).2.2 ⟨1, 5 / 2⟩ rfl (by decide) (by decide)
    rw [h]
    show _ = Except.ok ("close" ++ ": " ++ "2.50")
    rw [formatFixed_2_50]
  · exact (C10_contents_label_update "close" 0 contentsRows "old"
      ⟨0, 1⟩ ⟨2, 3⟩ rfl rfl).1 (Or.inl (by decide))

end Piker
